import Mathlib

/-!
Verification of the TUF_server repository (`server_host.py`) against its
natural-language specification.

The file first gives a shallow embedding of the program: SHA-256 (used by
`hashlib.sha256(...).hexdigest()` in the upload handler), the GridFS blob
store (a list of stored objects in insertion order; `find_one` returns the
first match, `put` appends, `delete` removes the found object), and the
three Flask handlers `get_metadata`, `get_target` and `upload_file`,
translated line by line from the source.  A possible store-layer exception
is modelled by an `exc` field on the store: when set, every store call
raises that exception string, which the handlers catch in their
`except Exception` branch exactly as the Python code does.

Theorems about the embedding follow the definitions.
-/

namespace TUF

/-! ## SHA-256 (embedding of Python's `hashlib.sha256(...).hexdigest()`) -/

/-- Truncate a natural number to 32 bits. -/
def w32 (n : Nat) : Nat := n % 4294967296

/-- Rotate a 32-bit word right by `n` bits. -/
def rotRight (n x : Nat) : Nat := ((x >>> n) ||| (x <<< (32 - n))) % 4294967296

def bigSigma0 (x : Nat) : Nat := rotRight 2 x ^^^ rotRight 13 x ^^^ rotRight 22 x

def bigSigma1 (x : Nat) : Nat := rotRight 6 x ^^^ rotRight 11 x ^^^ rotRight 25 x

def smallSigma0 (x : Nat) : Nat := rotRight 7 x ^^^ rotRight 18 x ^^^ (x >>> 3)

def smallSigma1 (x : Nat) : Nat := rotRight 17 x ^^^ rotRight 19 x ^^^ (x >>> 10)

/-- The 64 SHA-256 round constants (decimal rendering of the standard
table, first 32 bits of the fractional parts of the cube roots of the
first 64 primes). -/
def sha256K : List Nat :=
  [1116352408, 1899447441, 3049323471, 3921009573, 961987163,
   1508970993, 2453635748, 2870763221, 3624381080, 310598401,
   607225278, 1426881987, 1925078388, 2162078206, 2614888103,
   3248222580, 3835390401, 4022224774, 264347078, 604807628,
   770255983, 1249150122, 1555081692, 1996064986, 2554220882,
   2821834349, 2952996808, 3210313671, 3336571891, 3584528711,
   113926993, 338241895, 666307205, 773529912, 1294757372,
   1396182291, 1695183700, 1986661051, 2177026350, 2456956037,
   2730485921, 2820302411, 3259730800, 3345764771, 3516065817,
   3600352804, 4094571909, 275423344, 430227734, 506948616,
   659060556, 883997877, 958139571, 1322822218, 1537002063,
   1747873779, 1955562222, 2024104815, 2227730452, 2361852424,
   2428436474, 2756734187, 3204031479, 3329325298]

/-- The SHA-256 initial hash state (decimal rendering of the standard
initialisation vector). -/
def sha256H0 : List Nat :=
  [1779033703, 3144134277, 1013904242, 2773480762,
   1359893119, 2600822924, 528734635, 1541459225]

/-- Big-endian byte encoding of `val` on `count` bytes. -/
def beBytes (count val : Nat) : List Nat :=
  (List.range count).map (fun i => (val >>> (8 * (count - 1 - i))) % 256)

/-- SHA-256 padding: append `0x80`, zero bytes up to 56 mod 64, then the
bit length on 8 big-endian bytes. -/
def padMessage (msg : List Nat) : List Nat :=
  msg ++ [0x80] ++ List.replicate ((119 - msg.length % 64) % 64) 0 ++ beBytes 8 (8 * msg.length)

/-- Split a 64-byte block into 16 big-endian 32-bit words. -/
def toWords (block : List Nat) : List Nat :=
  (List.range 16).map (fun i =>
    block.getD (4 * i) 0 * 16777216 + block.getD (4 * i + 1) 0 * 65536 +
    block.getD (4 * i + 2) 0 * 256 + block.getD (4 * i + 3) 0)

/-- Split a padded message into its 64-byte blocks. -/
def toBlocks (l : List Nat) : List (List Nat) :=
  (List.range (l.length / 64)).map (fun i => (l.drop (64 * i)).take 64)

/-- Extend the 16 message words to the 64-entry message schedule. -/
def schedule (ws : List Nat) : List Nat :=
  (List.range 48).foldl
    (fun w _ =>
      w ++ [w32 (smallSigma1 (w.getD (w.length - 2) 0) + w.getD (w.length - 7) 0 +
                 smallSigma0 (w.getD (w.length - 15) 0) + w.getD (w.length - 16) 0)])
    ws

/-- One SHA-256 compression round on the 8-word state. -/
def roundStep (st : List Nat) (kw : Nat × Nat) : List Nat :=
  let a := st.getD 0 0
  let b := st.getD 1 0
  let c := st.getD 2 0
  let d := st.getD 3 0
  let e := st.getD 4 0
  let f := st.getD 5 0
  let g := st.getD 6 0
  let h := st.getD 7 0
  let temp1 := w32 (h + bigSigma1 e + ((e &&& f) ^^^ ((e ^^^ 4294967295) &&& g)) + kw.1 + kw.2)
  let temp2 := w32 (bigSigma0 a + ((a &&& b) ^^^ (a &&& c) ^^^ (b &&& c)))
  [w32 (temp1 + temp2), a, b, c, w32 (d + temp1), e, f, g]

/-- Compress one message block into the hash state. -/
def compress (h : List Nat) (block : List Nat) : List Nat :=
  let st := (sha256K.zip (schedule (toWords block))).foldl roundStep h
  (h.zip st).map (fun p => w32 (p.1 + p.2))

/-- SHA-256 of a byte list, as the 32 digest bytes. -/
def sha256 (msg : List Nat) : List Nat :=
  ((toBlocks (padMessage msg)).foldl compress sha256H0).foldr
    (fun wrd acc => beBytes 4 wrd ++ acc) []

/-- Lower-case hex digit for a value below 16. -/
def hexChar (n : Nat) : Char := if n < 10 then Char.ofNat (48 + n) else Char.ofNat (87 + n)

/-- Lower-case hex rendering of a byte list. -/
def hexOfBytes (bs : List Nat) : String :=
  String.mk (bs.foldr (fun b acc => hexChar (b / 16) :: hexChar (b % 16) :: acc) [])

/-- Embedding of Python's `hashlib.sha256(data).hexdigest()`. -/
def sha256hex (msg : List Nat) : String := hexOfBytes (sha256 msg)

/-! ## The GridFS blob store

`server_host.py` stores files through `gridfs.GridFS`: `fs.put` inserts a new
object (duplicate filenames allowed, each with a fresh id), `fs.find_one`
returns the first stored object matching the filter in natural (insertion)
order, and `fs.delete` removes the object with the given id.  We model the
store as the list of stored objects in insertion order; deleting the object
found by `find_one` is removing the first object with that name.

A store-layer failure (e.g. MongoDB connectivity loss) is modelled by the
`exc` field: when it is `some e`, every GridFS call raises the exception
rendered as the string `e`, which the handlers catch in their
`except Exception as e` branches. -/

/-- One object held by GridFS: its filename key and its payload bytes. -/
structure StoredObject where
  name : String
  bytes : List Nat
  deriving DecidableEq, Repr

/-- The GridFS store: objects in insertion order, plus the modelled
exception state of the underlying store layer. -/
structure FS where
  objects : List StoredObject
  exc : Option String
  deriving DecidableEq, Repr

/-- Embedding of `fs.find_one({"filename": n})`: the first stored object
whose name is `n`, or an exception if the store layer fails. -/
def find_one (fs : FS) (n : String) : Except String (Option StoredObject) :=
  match fs.exc with
  | some e => .error e
  | none => .ok (fs.objects.find? (fun o => o.name == n))

/-- Embedding of `fs.put(data, filename=n)`: append a new object (GridFS
allows duplicate filenames; each put creates a fresh object). -/
def fsPut (fs : FS) (n : String) (b : List Nat) : Except String FS :=
  match fs.exc with
  | some e => .error e
  | none => .ok ⟨fs.objects ++ [⟨n, b⟩], none⟩

/-- Embedding of `fs.delete(existing_file._id)` where `existing_file` was
returned by `find_one` on name `n`: remove the first object named `n`. -/
def fsDelete (fs : FS) (n : String) : FS :=
  ⟨fs.objects.eraseP (fun o => o.name == n), fs.exc⟩

/-! ## HTTP responses and the three handlers -/

/-- The observable HTTP responses produced by the handlers. -/
inductive Resp where
  | file (contentType : String) (content : List Nat)
  | created (message : String)
  | notFound (description : String)
  | badRequest (description : String)
  | serverError (description : String)
  deriving DecidableEq, Repr

/-- Embedding of Python's `str.endswith`: does the character sequence of
`s` end with the character sequence of `suffix`? -/
def pyEndsWith (s suffix : String) : Bool := List.isSuffixOf suffix.data s.data

/-- Embedding of the `GET /metadata/<filename>` handler (`get_metadata`,
`server_host.py` lines 43-67): infer the category from the `.json` suffix,
look the name up under the corresponding path, and serve it with the
category's content type; a store-layer exception yields a generic 500. -/
def get_metadata (fs : FS) (filename : String) : Resp :=
  let is_metadata := pyEndsWith filename ".json"
  let pfx := if is_metadata then "metadata" else "targets"
  match find_one fs (pfx ++ "/" ++ filename) with
  | .error _ => .serverError "Internal server error"
  | .ok none =>
      .notFound ((if is_metadata then "Metadata" else "Target") ++ " file " ++ filename ++
        " not found")
  | .ok (some f) =>
      .file (if is_metadata then "application/json" else "application/octet-stream") f.bytes

/-- Embedding of the catch-all `GET /<path:filename>` handler (`get_target`,
`server_host.py` lines 70-89): look the path up verbatim and always serve it
as `application/octet-stream`; a store-layer exception yields a 500 whose
description is the raw exception string. -/
def get_target (fs : FS) (filename : String) : Resp :=
  match find_one fs filename with
  | .error e => .serverError e
  | .ok none => .notFound ("Target file " ++ filename ++ " not found")
  | .ok (some f) => .file "application/octet-stream" f.bytes

/-- The storage key the upload handler computes for a target upload:
`f"{category}/{sha256_hash}.{filename}"` with `category = "targets"`. -/
def targetKey (fileData : List Nat) (filename : String) : String :=
  "targets/" ++ sha256hex fileData ++ "." ++ filename

/-- Embedding of the `POST /upload` handler (`upload_file`, `server_host.py`
lines 92-129).  `category` is `request.form.get('category')` (absent form
field gives `none`); `filename` is `file.filename`; `fileData` is
`file.read()`.  The result is the HTTP response paired with the store state
after the request.  Note that the metadata branch looks up and deletes
`"metadata/timestamp.json"` whatever the uploaded filename is: the source
has no `filename == "timestamp.json"` guard around lines 116-119. -/
def upload_file (fs : FS) (category : Option String) (filename : String)
    (fileData : List Nat) : Resp × FS :=
  if category ≠ some "metadata" ∧ category ≠ some "targets" then
    (.badRequest "Invalid category. Use \x27metadata\x27 or \x27targets\x27.", fs)
  else if category = some "targets" then
    match fsPut fs (targetKey fileData filename) fileData with
    | .error e => (.serverError e, fs)
    | .ok fs2 => (.created ("File " ++ filename ++ " uploaded to targets"), fs2)
  else
    match find_one fs "metadata/timestamp.json" with
    | .error e => (.serverError e, fs)
    | .ok existing =>
      let fs1 := match existing with
        | some _ => fsDelete fs "metadata/timestamp.json"
        | none => fs
      match fsPut fs1 ("metadata/" ++ filename) fileData with
      | .error e => (.serverError e, fs1)
      | .ok fs2 => (.created ("File " ++ filename ++ " uploaded to metadata"), fs2)

/-! ## Upload sequences and store observations -/

/-- One `POST /upload` request: the form category field, the original
filename of the file part, and its payload bytes. -/
structure UploadReq where
  category : Option String
  filename : String
  fileData : List Nat
  deriving DecidableEq, Repr

/-- Run a sequence of upload requests, threading the store state. -/
def runUploads (fs : FS) : List UploadReq → FS
  | [] => fs
  | r :: rs => runUploads (upload_file fs r.category r.filename r.fileData).2 rs

/-- The store of a freshly created repository: no objects, healthy layer. -/
def emptyFS : FS := ⟨[], none⟩

/-- The reserved rotating metadata name. -/
def tsName : String := "metadata/timestamp.json"

/-- How many live objects of the store carry the name
`metadata/timestamp.json`. -/
def tsCount (fs : FS) : Nat := fs.objects.countP (fun o => o.name == tsName)

/-- The live objects of the store carrying the name `n`, in store order. -/
def objectsNamed (fs : FS) (n : String) : List StoredObject :=
  fs.objects.filter (fun o => o.name == n)

/-! ## Sanity checks of the SHA-256 embedding against published test
vectors (FIPS 180-2: the empty message and `"abc"`). -/

set_option maxRecDepth 100000

theorem sha256hex_empty :
    sha256hex [] = "e3b0c44298fc1c149afbf4c8996fb92427ae41e4649b934ca495991b7852b855" := by
  decide

theorem sha256hex_abc :
    sha256hex [97, 98, 99] =
      "ba7816bf8f01cfea414140de5dae2223b00361a396177a9cb410ff61f20015ad" := by
  decide

/-! ## String helpers: storage keys with different category prefixes are
distinct, and the `metadata/` prefix is cancellable. -/

theorem string_ne_of_head {a b : String} {c d : Char} (ha : a.data.head? = some c)
    (hb : b.data.head? = some d) (hcd : c ≠ d) : a ≠ b := by
  intro h
  subst h
  rw [ha] at hb
  exact hcd (Option.some.inj hb)

theorem head_metadata_append (s : String) : (("metadata/" ++ s).data).head? = some 'm' := by
  rw [String.data_append]; rfl

theorem head_targetKey (B : List Nat) (F : String) :
    ((targetKey B F).data).head? = some 't' := by
  rw [targetKey, String.data_append, String.data_append, String.data_append]; rfl

theorem targetKey_ne_tsName (B : List Nat) (F : String) : targetKey B F ≠ tsName :=
  string_ne_of_head (head_targetKey B F) (by rfl) (by decide)

theorem mprefix_inj {F G : String} (h : "metadata/" ++ F = "metadata/" ++ G) : F = G := by
  have h2 := congrArg String.data h
  rw [String.data_append, String.data_append] at h2
  exact String.ext (List.append_cancel_left h2)

theorem metadata_append_ne_tsName {F : String} (hF : F ≠ "timestamp.json") :
    "metadata/" ++ F ≠ tsName := by
  intro h
  have h2 : "metadata/" ++ F = "metadata/" ++ "timestamp.json" := by rw [h]; rfl
  exact hF (mprefix_inj h2)

theorem metadata_append_ne_targets_append (F G : String) :
    "metadata/" ++ F ≠ "targets/" ++ G :=
  string_ne_of_head (head_metadata_append F)
    (by rw [String.data_append]; rfl) (by decide)

/-! ## List helpers about `find?`, `countP`, `filter` and `eraseP` -/

theorem countP_eraseP_pos {α : Type} (p : α → Bool) (l : List α) (h : 0 < l.countP p) :
    (l.eraseP p).countP p = l.countP p - 1 := by
  induction l with
  | nil => simp at h
  | cons a t ih =>
    by_cases hpa : p a = true
    · rw [List.eraseP_cons_of_pos hpa, List.countP_cons, if_pos hpa]
      simp
    · rw [List.eraseP_cons_of_neg hpa, List.countP_cons, if_neg hpa,
        List.countP_cons, if_neg hpa, Nat.add_zero, Nat.add_zero]
      apply ih
      rw [List.countP_cons, if_neg hpa, Nat.add_zero] at h
      exact h

theorem find?_append_none {α : Type} {p : α → Bool} {l1 : List α} (l2 : List α)
    (h : l1.find? p = none) : (l1 ++ l2).find? p = l2.find? p := by
  rw [List.find?_append, h, Option.none_or]

theorem filter_eraseP_of_imp {α : Type} {p q : α → Bool}
    (h : ∀ x, p x = true → q x = false) (l : List α) :
    (l.eraseP p).filter q = l.filter q := by
  induction l with
  | nil => rfl
  | cons a t ih =>
    by_cases hpa : p a = true
    · rw [List.eraseP_cons_of_pos hpa, List.filter_cons, if_neg (by simp [h a hpa])]
    · rw [List.eraseP_cons_of_neg hpa, List.filter_cons, List.filter_cons, ih]

theorem find?_eraseP_none {α : Type} {p q : α → Bool} {l : List α}
    (h : l.find? q = none) : (l.eraseP p).find? q = none := by
  rw [List.find?_eq_none] at h ⊢
  intro x hx
  exact h x ((List.eraseP_sublist l).subset hx)

theorem filter_eq_nil_of_countP_zero {α : Type} {p : α → Bool} {l : List α}
    (h : l.countP p = 0) : l.filter p = [] := by
  rw [List.countP_eq_length_filter] at h
  exact List.length_eq_zero.mp h

/-! ## Unfolding lemmas for the upload handler -/

theorem upload_invalid_eq (fs : FS) (c : Option String) (F : String) (B : List Nat)
    (h1 : c ≠ some "metadata") (h2 : c ≠ some "targets") :
    upload_file fs c F B =
      (.badRequest "Invalid category. Use \x27metadata\x27 or \x27targets\x27.", fs) := by
  unfold upload_file
  rw [if_pos ⟨h1, h2⟩]

theorem upload_targets_eq (fs : FS) (F : String) (B : List Nat) (h : fs.exc = none) :
    upload_file fs (some "targets") F B =
      (.created ("File " ++ F ++ " uploaded to targets"),
        ⟨fs.objects ++ [⟨targetKey B F, B⟩], none⟩) := by
  unfold upload_file
  rw [if_neg (by simp), if_pos rfl]
  simp [fsPut, h]

theorem upload_metadata_eq (fs : FS) (F : String) (B : List Nat) (h : fs.exc = none) :
    upload_file fs (some "metadata") F B =
      (.created ("File " ++ F ++ " uploaded to metadata"),
        ⟨(match fs.objects.find? (fun o => o.name == tsName) with
          | some _ => fs.objects.eraseP (fun o => o.name == tsName)
          | none => fs.objects) ++ [⟨"metadata/" ++ F, B⟩], none⟩) := by
  unfold upload_file
  rw [if_neg (by simp), if_neg (by simp)]
  rw [show ("metadata/timestamp.json" : String) = tsName from rfl]
  simp only [find_one, fsPut, fsDelete, h]
  cases hf : fs.objects.find? (fun o => o.name == tsName) <;> simp [hf, h]

theorem upload_exc_eq (fs : FS) (c : Option String) (F : String) (B : List Nat)
    {e : String} (h : fs.exc = some e) :
    (upload_file fs c F B).2 = fs := by
  unfold upload_file
  by_cases h1 : c ≠ some "metadata" ∧ c ≠ some "targets"
  · rw [if_pos h1]
  · rw [if_neg h1]
    by_cases h2 : c = some "targets"
    · rw [if_pos h2]
      simp [fsPut, h]
    · rw [if_neg h2]
      simp [find_one, h]

/-! ## The timestamp slot under upload sequences -/

theorem tsCount_upload_le (fs : FS) (c : Option String) (F : String) (B : List Nat)
    (h : tsCount fs ≤ 1) : tsCount (upload_file fs c F B).2 ≤ 1 := by
  unfold tsCount at h ⊢
  cases he : fs.exc with
  | some e => rw [upload_exc_eq fs c F B he]; exact h
  | none =>
    by_cases h1 : c = some "metadata"
    · subst h1
      rw [upload_metadata_eq fs F B he]
      simp only
      rw [List.countP_append]
      have hnew : List.countP (fun o => o.name == tsName)
          [(⟨"metadata/" ++ F, B⟩ : StoredObject)] ≤ 1 := by
        by_cases hx : (("metadata/" ++ F : String) == tsName) = true <;>
          simp [List.countP_cons, hx]
      cases hf : fs.objects.find? (fun o => o.name == tsName) with
      | none =>
        have h0 : fs.objects.countP (fun o => o.name == tsName) = 0 := by
          rw [List.countP_eq_zero]
          exact List.find?_eq_none.mp hf
        simp only [h0]
        omega
      | some a =>
        have hpos : 0 < fs.objects.countP (fun o => o.name == tsName) :=
          List.countP_pos_iff.mpr
            ⟨a, List.mem_of_find?_eq_some hf, List.find?_some (p := fun (o : StoredObject) => o.name == tsName) hf⟩
        have herase := countP_eraseP_pos (fun o => o.name == tsName) fs.objects hpos
        simp only [herase]
        omega
    · by_cases h2 : c = some "targets"
      · subst h2
        rw [upload_targets_eq fs F B he]
        simp only
        rw [List.countP_append]
        have hnew : List.countP (fun o => o.name == tsName)
            [(⟨targetKey B F, B⟩ : StoredObject)] = 0 := by
          simp [List.countP_cons, beq_eq_false_iff_ne.mpr (targetKey_ne_tsName B F)]
        omega
      · rw [upload_invalid_eq fs c F B h1 h2]
        exact h

theorem tsCount_runUploads_le : ∀ (rs : List UploadReq) (fs : FS), tsCount fs ≤ 1 →
    tsCount (runUploads fs rs) ≤ 1
  | [], _, h => h
  | r :: rs, fs, h =>
    tsCount_runUploads_le rs _ (tsCount_upload_le fs r.category r.filename r.fileData h)

theorem ts_upload_objectsNamed (fs : FS) (p : List Nat) (h : fs.exc = none)
    (hc : tsCount fs ≤ 1) :
    objectsNamed (upload_file fs (some "metadata") "timestamp.json" p).2 tsName
        = [⟨tsName, p⟩]
    ∧ (upload_file fs (some "metadata") "timestamp.json" p).2.exc = none := by
  unfold tsCount at hc
  rw [upload_metadata_eq fs "timestamp.json" p h]
  refine ⟨?_, rfl⟩
  unfold objectsNamed
  simp only
  rw [List.filter_append]
  have hnew : ∀ q : List Nat, List.filter (fun o => o.name == tsName)
      [(⟨"metadata/" ++ "timestamp.json", q⟩ : StoredObject)] = [⟨tsName, q⟩] := by
    intro q
    have hcond : ((⟨"metadata/" ++ "timestamp.json", q⟩ : StoredObject).name == tsName) = true :=
      beq_iff_eq.mpr rfl
    rw [List.filter_cons, if_pos hcond]
    rfl
  cases hf : fs.objects.find? (fun o => o.name == tsName) with
  | none =>
    have h0 : fs.objects.countP (fun o => o.name == tsName) = 0 := by
      rw [List.countP_eq_zero]
      exact List.find?_eq_none.mp hf
    rw [filter_eq_nil_of_countP_zero h0, hnew p]
    rfl
  | some a =>
    have hpos : 0 < fs.objects.countP (fun o => o.name == tsName) :=
      List.countP_pos_iff.mpr
            ⟨a, List.mem_of_find?_eq_some hf, List.find?_some (p := fun (o : StoredObject) => o.name == tsName) hf⟩
    have herase := countP_eraseP_pos (fun o => o.name == tsName) fs.objects hpos
    have h0 : (fs.objects.eraseP (fun o => o.name == tsName)).countP
        (fun o => o.name == tsName) = 0 := by omega
    rw [filter_eq_nil_of_countP_zero h0, hnew p]
    rfl

/-- Claim C2 (amended).  Single-slot rotation for the timestamp role:
starting from any store state holding at most one object named
`metadata/timestamp.json` (the original claim's "any store state" fails when
the store already holds two such objects, see the counterexample), after two
successful metadata uploads of `timestamp.json` with different payloads the
store holds exactly one object named `metadata/timestamp.json` and its bytes
are the second payload; and starting from the empty store, at most one live
`metadata/timestamp.json` object exists after any sequence of uploads. -/
theorem c2_single_slot_rotation :
    (∀ (fs : FS) (p1 p2 : List Nat), fs.exc = none → tsCount fs ≤ 1 → p1 ≠ p2 →
      objectsNamed (runUploads fs
          [⟨some "metadata", "timestamp.json", p1⟩, ⟨some "metadata", "timestamp.json", p2⟩])
          tsName
        = [⟨tsName, p2⟩])
    ∧ ∀ rs : List UploadReq, tsCount (runUploads emptyFS rs) ≤ 1 := by
  constructor
  · intro fs p1 p2 h hc _
    have s1 := ts_upload_objectsNamed fs p1 h hc
    have hc1 : tsCount (upload_file fs (some "metadata") "timestamp.json" p1).2 ≤ 1 := by
      unfold tsCount
      rw [List.countP_eq_length_filter]
      have : objectsNamed (upload_file fs (some "metadata") "timestamp.json" p1).2 tsName
          = [⟨tsName, p1⟩] := s1.1
      unfold objectsNamed at this
      rw [this]
      exact Nat.le_refl 1
    have s2 := ts_upload_objectsNamed _ p2 s1.2 hc1
    exact s2.1
  · intro rs
    exact tsCount_runUploads_le rs emptyFS (by decide)

/-- Witness for C2: from the empty store, uploading `timestamp.json` with
payload `[0]` then `[1]` leaves exactly one timestamp object, bytes `[1]`. -/
theorem c2_single_slot_rotation_witness :
    objectsNamed (runUploads emptyFS
        [⟨some "metadata", "timestamp.json", [0]⟩, ⟨some "metadata", "timestamp.json", [1]⟩])
        tsName
      = [⟨tsName, [1]⟩] :=
  c2_single_slot_rotation.1 emptyFS [0] [1] rfl (by decide) (by decide)

/-- Counterexample to C2 as literally stated ("starting from any store
state"): if the store already holds two objects named
`metadata/timestamp.json`, then after two timestamp uploads with different
payloads `[2]` and `[3]` the store still holds two such objects (one of them
carrying the stale first payload), not exactly one. -/
theorem c2_counterexample :
    objectsNamed (runUploads ⟨[⟨tsName, [0]⟩, ⟨tsName, [1]⟩], none⟩
        [⟨some "metadata", "timestamp.json", [2]⟩, ⟨some "metadata", "timestamp.json", [3]⟩])
        tsName
      = [⟨tsName, [2]⟩, ⟨tsName, [3]⟩]
    ∧ (objectsNamed (runUploads ⟨[⟨tsName, [0]⟩, ⟨tsName, [1]⟩], none⟩
        [⟨some "metadata", "timestamp.json", [2]⟩, ⟨some "metadata", "timestamp.json", [3]⟩])
        tsName).length ≠ 1 := by
  decide

/-- Claim C1, evaluated at the failing input.  The spec says the
find-then-delete of `metadata/timestamp.json` runs only when the uploaded
filename is exactly `timestamp.json`, but the source (lines 111-121) runs it
on every metadata upload: uploading `root.json` into a store holding a
timestamp object deletes that timestamp object — the resulting store holds
only the new `metadata/root.json` object, and the pre-existing
`metadata/timestamp.json` object is gone. -/
theorem c1_pre_delete_runs_for_root_json :
    (upload_file ⟨[⟨"metadata/timestamp.json", [1]⟩], none⟩
        (some "metadata") "root.json" [2]).2
      = ⟨[⟨"metadata/root.json", [2]⟩], none⟩ := by
  decide

/-- Claim C8.  An upload whose category field is neither `metadata` nor
`targets` (including a missing field) is rejected with 400 BadRequest and
the store is returned unchanged: nothing is written, nothing is deleted. -/
theorem c8_invalid_category_rejected (fs : FS) (c : Option String) (F : String)
    (B : List Nat) (h1 : c ≠ some "metadata") (h2 : c ≠ some "targets") :
    upload_file fs c F B =
      (.badRequest "Invalid category. Use \x27metadata\x27 or \x27targets\x27.", fs) :=
  upload_invalid_eq fs c F B h1 h2

/-- Witness for C8: category `"foo"` on a one-object store. -/
theorem c8_invalid_category_rejected_witness :
    upload_file ⟨[⟨"targets/x", [9]⟩], none⟩ (some "foo") "x.bin" [0] =
      (.badRequest "Invalid category. Use \x27metadata\x27 or \x27targets\x27.",
        ⟨[⟨"targets/x", [9]⟩], none⟩) :=
  c8_invalid_category_rejected ⟨[⟨"targets/x", [9]⟩], none⟩ (some "foo") "x.bin" [0]
    (by decide) (by decide)

/-! ## Reduction lemmas for the two GET handlers -/

theorem get_metadata_exc_eq (l : List StoredObject) (e nm : String) :
    get_metadata ⟨l, some e⟩ nm = .serverError "Internal server error" :=
  rfl

theorem get_target_exc_eq (l : List StoredObject) (e nm : String) :
    get_target ⟨l, some e⟩ nm = .serverError e :=
  rfl

theorem get_metadata_json_some (l : List StoredObject) (nm : String) (f : StoredObject)
    (hjson : pyEndsWith nm ".json" = true)
    (hf : l.find? (fun o => o.name == "metadata/" ++ nm) = some f) :
    get_metadata ⟨l, none⟩ nm = .file "application/json" f.bytes := by
  simp [get_metadata, find_one, hjson, hf]

theorem get_metadata_nonjson_some (l : List StoredObject) (nm : String) (f : StoredObject)
    (hjson : pyEndsWith nm ".json" = false)
    (hf : l.find? (fun o => o.name == "targets/" ++ nm) = some f) :
    get_metadata ⟨l, none⟩ nm = .file "application/octet-stream" f.bytes := by
  simp [get_metadata, find_one, hjson, hf]

theorem get_metadata_nonjson_none (l : List StoredObject) (nm : String)
    (hjson : pyEndsWith nm ".json" = false)
    (hf : l.find? (fun o => o.name == "targets/" ++ nm) = none) :
    get_metadata ⟨l, none⟩ nm = .notFound ("Target file " ++ nm ++ " not found") := by
  simp [get_metadata, find_one, hjson, hf]

theorem get_target_some (l : List StoredObject) (nm : String) (f : StoredObject)
    (hf : l.find? (fun o => o.name == nm) = some f) :
    get_target ⟨l, none⟩ nm = .file "application/octet-stream" f.bytes := by
  simp [get_target, find_one, hf]

theorem get_target_none (l : List StoredObject) (nm : String)
    (hf : l.find? (fun o => o.name == nm) = none) :
    get_target ⟨l, none⟩ nm = .notFound ("Target file " ++ nm ++ " not found") := by
  simp [get_target, find_one, hf]

/-! ## Claim C9: non-timestamp metadata names accumulate duplicates -/

theorem metadata_upload_objectsNamed_other (fs : FS) (F : String) (p : List Nat)
    (h : fs.exc = none) (hF : F ≠ "timestamp.json") :
    objectsNamed (upload_file fs (some "metadata") F p).2 ("metadata/" ++ F)
        = objectsNamed fs ("metadata/" ++ F) ++ [⟨"metadata/" ++ F, p⟩]
    ∧ (upload_file fs (some "metadata") F p).2.exc = none := by
  rw [upload_metadata_eq fs F p h]
  refine ⟨?_, rfl⟩
  unfold objectsNamed
  simp only
  rw [List.filter_append]
  have hnew : List.filter (fun o => o.name == "metadata/" ++ F)
      [(⟨"metadata/" ++ F, p⟩ : StoredObject)] = [⟨"metadata/" ++ F, p⟩] := by
    have hcond : ((⟨"metadata/" ++ F, p⟩ : StoredObject).name == "metadata/" ++ F) = true :=
      beq_iff_eq.mpr rfl
    rw [List.filter_cons, if_pos hcond]
    rfl
  have himp : ∀ x : StoredObject,
      (x.name == tsName) = true → (x.name == "metadata/" ++ F) = false := by
    intro x hx
    rw [beq_iff_eq.mp hx, beq_eq_false_iff_ne]
    exact fun hEq => metadata_append_ne_tsName hF hEq.symm
  cases hf : fs.objects.find? (fun o => o.name == tsName) with
  | none => rw [hnew]
  | some a => rw [filter_eraseP_of_imp himp, hnew]

/-- Claim C9.  For a metadata filename `F` other than `timestamp.json`, the
upload never deletes an object named `metadata/F` (its pre-delete concerns
only `metadata/timestamp.json`), so two successful metadata uploads of `F`
append two distinct live objects named `metadata/F` to whatever the store
already held under that name. -/
theorem c9_nontimestamp_metadata_accumulates (fs : FS) (F : String) (p1 p2 : List Nat)
    (h : fs.exc = none) (hF : F ≠ "timestamp.json") :
    objectsNamed (runUploads fs [⟨some "metadata", F, p1⟩, ⟨some "metadata", F, p2⟩])
        ("metadata/" ++ F)
      = objectsNamed fs ("metadata/" ++ F) ++
          [⟨"metadata/" ++ F, p1⟩, ⟨"metadata/" ++ F, p2⟩] := by
  have s1 := metadata_upload_objectsNamed_other fs F p1 h hF
  have s2 := metadata_upload_objectsNamed_other _ F p2 s1.2 hF
  show objectsNamed
      (upload_file (upload_file fs (some "metadata") F p1).2 (some "metadata") F p2).2
      ("metadata/" ++ F) = _
  rw [s2.1, s1.1, List.append_assoc]
  rfl

/-- Witness for C9: uploading `root.json` twice from the empty store leaves
two live objects named `metadata/root.json`. -/
theorem c9_nontimestamp_metadata_accumulates_witness :
    objectsNamed (runUploads emptyFS
        [⟨some "metadata", "root.json", [0]⟩, ⟨some "metadata", "root.json", [1]⟩])
        ("metadata/" ++ "root.json")
      = objectsNamed emptyFS ("metadata/" ++ "root.json") ++
          [⟨"metadata/" ++ "root.json", [0]⟩, ⟨"metadata/" ++ "root.json", [1]⟩] :=
  c9_nontimestamp_metadata_accumulates emptyFS "root.json" [0] [1] rfl (by decide)

/-! ## Claim C3: content-addressed target keys -/

/-- Claim C3.  A target upload of bytes `B` under original filename `F`
appends exactly one object whose storage key is
`"targets/" + hex(sha256(B)) + "." + F` and whose bytes are `B`, and
responds 201 Created; the key is a deterministic function of `(B, F)`:
re-uploading the same bytes under the same filename stores a second object
under the very same key. -/
theorem c3_target_content_addressed_key (fs : FS) (B : List Nat) (F : String)
    (h : fs.exc = none) :
    upload_file fs (some "targets") F B =
      (.created ("File " ++ F ++ " uploaded to targets"),
        ⟨fs.objects ++ [⟨"targets/" ++ sha256hex B ++ "." ++ F, B⟩], none⟩)
    ∧ (upload_file (upload_file fs (some "targets") F B).2 (some "targets") F B).2.objects
      = fs.objects ++ [⟨"targets/" ++ sha256hex B ++ "." ++ F, B⟩,
          ⟨"targets/" ++ sha256hex B ++ "." ++ F, B⟩] := by
  have h1 := upload_targets_eq fs F B h
  have hsnd : (upload_file fs (some "targets") F B).2
      = ⟨fs.objects ++ [⟨targetKey B F, B⟩], none⟩ := by rw [h1]
  constructor
  · exact h1
  · rw [hsnd]
    have h2 := upload_targets_eq ⟨fs.objects ++ [⟨targetKey B F, B⟩], none⟩ F B rfl
    have hsnd2 : (upload_file (⟨fs.objects ++ [⟨targetKey B F, B⟩], none⟩ : FS)
        (some "targets") F B).2
        = ⟨(fs.objects ++ [⟨targetKey B F, B⟩]) ++ [⟨targetKey B F, B⟩], none⟩ := by rw [h2]
    rw [hsnd2]
    rw [show ((⟨(fs.objects ++ [⟨targetKey B F, B⟩]) ++ [⟨targetKey B F, B⟩], none⟩ : FS)).objects
        = (fs.objects ++ [⟨targetKey B F, B⟩]) ++ [⟨targetKey B F, B⟩] from rfl]
    rw [List.append_assoc]
    rfl

/-- Witness for C3 at bytes `[97]` and filename `"a.bin"`. -/
theorem c3_target_content_addressed_key_witness :
    upload_file emptyFS (some "targets") "a.bin" [97] =
      (.created ("File " ++ "a.bin" ++ " uploaded to targets"),
        ⟨[] ++ [⟨"targets/" ++ sha256hex [97] ++ "." ++ "a.bin", [97]⟩], none⟩) :=
  (c3_target_content_addressed_key emptyFS [97] "a.bin" rfl).1

/-! ## Claim C4: category inference on the category-inferred GET route -/

/-- Claim C4.  The category-inferred retrieval route resolves a name ending
in `.json` to the key `metadata/<name>` and serves a hit as
`application/json`, and any other name to `targets/<name>` served as
`application/octet-stream`. -/
theorem c4_category_inference (fs : FS) (nm : String) (f : StoredObject)
    (h : fs.exc = none)
    (hf : fs.objects.find? (fun o =>
        o.name == (if pyEndsWith nm ".json" then "metadata/" else "targets/") ++ nm)
      = some f) :
    get_metadata fs nm =
      .file (if pyEndsWith nm ".json" then "application/json" else "application/octet-stream")
        f.bytes := by
  obtain ⟨l, e⟩ := fs
  cases h
  cases hj : pyEndsWith nm ".json" with
  | false =>
    rw [hj] at hf
    simp only [Bool.false_eq_true, if_false] at hf ⊢
    exact get_metadata_nonjson_some l nm f hj hf
  | true =>
    rw [hj] at hf
    simp only [if_true] at hf ⊢
    exact get_metadata_json_some l nm f hj hf

/-- Witness for C4: a store holding `metadata/x.json` serves `x.json` via
the category-inferred route as JSON. -/
theorem c4_category_inference_witness :
    get_metadata ⟨[⟨"metadata/x.json", [5]⟩], none⟩ "x.json" =
      .file (if pyEndsWith "x.json" ".json" then "application/json"
        else "application/octet-stream") [5] :=
  c4_category_inference ⟨[⟨"metadata/x.json", [5]⟩], none⟩ "x.json"
    ⟨"metadata/x.json", [5]⟩ rfl (by decide)

/-! ## Claim C6: the catch-all route always serves octet-stream -/

/-- Claim C6.  Every successful response of the catch-all (verbatim-path)
GET route carries content type `application/octet-stream` — also for names
ending in `.json`; the catch-all never serves `application/json`. -/
theorem c6_catchall_octet_stream (fs : FS) (nm ct : String) (bs : List Nat)
    (h : get_target fs nm = .file ct bs) : ct = "application/octet-stream" := by
  obtain ⟨l, e⟩ := fs
  cases e with
  | some e0 =>
    rw [get_target_exc_eq] at h
    exact absurd h (by simp)
  | none =>
    cases hf : l.find? (fun o => o.name == nm) with
    | none =>
      have h2 := (get_target_none l nm hf).symm.trans h
      exact absurd h2 (by simp)
    | some f =>
      have h2 := (get_target_some l nm f hf).symm.trans h
      injection h2 with h3 h4
      exact h3.symm

/-- Witness for C6: a stored object named `x.json` fetched through the
catch-all still comes back as `application/octet-stream`. -/
theorem c6_catchall_octet_stream_witness :
    get_target ⟨[⟨"x.json", [7]⟩], none⟩ "x.json" = .file "application/octet-stream" [7]
    ∧ "application/octet-stream" = "application/octet-stream" :=
  ⟨by decide, c6_catchall_octet_stream ⟨[⟨"x.json", [7]⟩], none⟩ "x.json"
    "application/octet-stream" [7] (by decide)⟩

/-! ## Claim C7: round trip through content addressing -/

/-- Claim C7.  After a target upload of bytes `B` with filename `a.bin`
(into a store holding neither the verbatim name `a.bin` nor the
content-addressed key), a catch-all GET for the verbatim path `a.bin`
returns 404 — target keys are hash-prefixed — while a catch-all GET for
`targets/<hex(sha256(B))>.a.bin` returns exactly `B` as
`application/octet-stream`. -/
theorem c7_round_trip (fs : FS) (B : List Nat) (h : fs.exc = none)
    (h1 : fs.objects.find? (fun o => o.name == "a.bin") = none)
    (h2 : fs.objects.find? (fun o => o.name == targetKey B "a.bin") = none) :
    get_target (upload_file fs (some "targets") "a.bin" B).2 "a.bin"
        = .notFound "Target file a.bin not found"
    ∧ get_target (upload_file fs (some "targets") "a.bin" B).2
        ("targets/" ++ sha256hex B ++ ".a.bin")
        = .file "application/octet-stream" B := by
  have hu := upload_targets_eq fs "a.bin" B h
  have hsnd : (upload_file fs (some "targets") "a.bin" B).2
      = ⟨fs.objects ++ [⟨targetKey B "a.bin", B⟩], none⟩ := by rw [hu]
  have hkeyeq : targetKey B "a.bin" = "targets/" ++ sha256hex B ++ ".a.bin" := by
    rw [targetKey, String.append_assoc]
    rfl
  constructor
  · rw [hsnd]
    apply get_target_none
    rw [find?_append_none _ h1, List.find?_eq_none]
    intro x hx
    rw [List.mem_singleton] at hx
    subst hx
    have hne : targetKey B "a.bin" ≠ "a.bin" :=
      string_ne_of_head (head_targetKey B "a.bin") (by rfl) (by decide)
    simp [beq_eq_false_iff_ne.mpr hne]
  · rw [hsnd, ← hkeyeq]
    have hfind : (fs.objects ++ [(⟨targetKey B "a.bin", B⟩ : StoredObject)]).find?
        (fun (o : StoredObject) => o.name == targetKey B "a.bin")
        = some ⟨targetKey B "a.bin", B⟩ := by
      rw [find?_append_none _ h2]
      exact List.find?_cons_of_pos _ (beq_iff_eq.mpr rfl)
    exact get_target_some _ _ _ hfind

/-- Witness for C7 at bytes `[97]` from the empty store. -/
theorem c7_round_trip_witness :
    get_target (upload_file emptyFS (some "targets") "a.bin" [97]).2 "a.bin"
        = .notFound "Target file a.bin not found"
    ∧ get_target (upload_file emptyFS (some "targets") "a.bin" [97]).2
        ("targets/" ++ sha256hex [97] ++ ".a.bin")
        = .file "application/octet-stream" [97] :=
  c7_round_trip emptyFS [97] rfl rfl rfl

/-! ## Claim C10: non-`.json` metadata uploads are unreachable through the
category-inferred route -/

/-- Claim C10.  A successful metadata upload of a filename `F` that does not
end in `.json` stores the payload under `metadata/F`, but the
category-inferred route then infers the target category for `F`, looks up
`targets/F`, and answers 404 "Target file F not found" although the object
named `metadata/F` is live in the store. -/
theorem c10_nonjson_metadata_unreachable (fs : FS) (F : String) (p : List Nat)
    (h : fs.exc = none) (hF : pyEndsWith F ".json" = false)
    (hT : fs.objects.find? (fun o => o.name == "targets/" ++ F) = none) :
    (⟨"metadata/" ++ F, p⟩ : StoredObject) ∈ (upload_file fs (some "metadata") F p).2.objects
    ∧ get_metadata (upload_file fs (some "metadata") F p).2 F
        = .notFound ("Target file " ++ F ++ " not found") := by
  have hu := upload_metadata_eq fs F p h
  have hsnd : (upload_file fs (some "metadata") F p).2
      = ⟨(match fs.objects.find? (fun o => o.name == tsName) with
          | some _ => fs.objects.eraseP (fun o => o.name == tsName)
          | none => fs.objects) ++ [⟨"metadata/" ++ F, p⟩], none⟩ := by rw [hu]
  rw [hsnd]
  constructor
  · exact List.mem_append_right _ (List.mem_singleton.mpr rfl)
  · apply get_metadata_nonjson_none _ _ hF
    have hbranch : List.find? (fun (o : StoredObject) => o.name == "targets/" ++ F)
        (match fs.objects.find? (fun o => o.name == tsName) with
         | some _ => fs.objects.eraseP (fun o => o.name == tsName)
         | none => fs.objects) = none := by
      cases hf : fs.objects.find? (fun o => o.name == tsName) with
      | none => simp only [hf]; exact hT
      | some a => simp only [hf]; exact find?_eraseP_none hT
    rw [find?_append_none _ hbranch, List.find?_eq_none]
    intro x hx
    rw [List.mem_singleton] at hx
    subst hx
    have hne : ("metadata/" ++ F : String) ≠ "targets/" ++ F :=
      metadata_append_ne_targets_append F F
    simp [beq_eq_false_iff_ne.mpr hne]

/-- Witness for C10: uploading `a.bin` as metadata from the empty store and
then asking the category-inferred route for `a.bin`. -/
theorem c10_nonjson_metadata_unreachable_witness :
    (⟨"metadata/" ++ "a.bin", [1]⟩ : StoredObject)
        ∈ (upload_file emptyFS (some "metadata") "a.bin" [1]).2.objects
    ∧ get_metadata (upload_file emptyFS (some "metadata") "a.bin" [1]).2 "a.bin"
        = .notFound ("Target file " ++ "a.bin" ++ " not found") :=
  c10_nonjson_metadata_unreachable emptyFS "a.bin" [1] rfl (by decide) rfl

/-! ## Claim C5: 500 messages on store-layer exceptions -/

/-- Claim C5 (amended).  On an unexpected store-layer exception the
category-inferred GET route answers 500 with the generic message
"Internal server error", while BOTH the catch-all GET route and the upload
route echo the raw exception string in their 500 response (the original
claim said the catch-all is also generic; the counterexample shows it
echoes). -/
theorem c5_store_error_messages (objs : List StoredObject) (e nm F : String) (B : List Nat)
    (c : Option String) (hc : c = some "metadata" ∨ c = some "targets") :
    get_metadata ⟨objs, some e⟩ nm = .serverError "Internal server error"
    ∧ get_target ⟨objs, some e⟩ nm = .serverError e
    ∧ (upload_file ⟨objs, some e⟩ c F B).1 = .serverError e := by
  refine ⟨rfl, rfl, ?_⟩
  rcases hc with hc | hc <;> subst hc
  · unfold upload_file
    rw [if_neg (by simp), if_neg (by simp)]
    simp [find_one]
  · unfold upload_file
    rw [if_neg (by simp), if_pos rfl]
    simp [fsPut]

/-- Witness for C5 with exception text "db down" and a metadata upload. -/
theorem c5_store_error_messages_witness :
    get_metadata ⟨[], some "db down"⟩ "root.json" = .serverError "Internal server error"
    ∧ get_target ⟨[], some "db down"⟩ "root.json" = .serverError "db down"
    ∧ (upload_file ⟨[], some "db down"⟩ (some "metadata") "root.json" [0]).1
        = .serverError "db down" :=
  c5_store_error_messages [] "db down" "root.json" "root.json" [0] (some "metadata")
    (Or.inl rfl)

/-- Counterexample to C5 as stated: the catch-all GET route does NOT answer
a generic 500 — with exception text "boom" its 500 description is "boom",
not "Internal server error" (`server_host.py` line 89 aborts with
`description=str(e)`). -/
theorem c5_counterexample :
    get_target ⟨[], some "boom"⟩ "x.json" = .serverError "boom"
    ∧ get_target ⟨[], some "boom"⟩ "x.json" ≠ .serverError "Internal server error" := by
  decide

end TUF
